import Mathlib

/-!
Verification development for the smartstudy backend (src/backend/main.py).

The Python functions under scrutiny are shallowly embedded as executable
Lean definitions over `List Char` / `String`.  Python `str` values are
modelled as Lean `String` (sequences of characters); machine floats that
only ever hold exact small decimal values (score percentages) are modelled
as `ℚ` with exact arithmetic; `dict` values whose insertion order matters
are modelled as association lists.
-/

/-- Python whitespace as used by `str.split()` / `str.strip()`:
space, tab, newline, carriage return, vertical tab, form feed. -/
def pyIsSpace (c : Char) : Bool :=
  c = ' ' || c = '\t' || c = '\n' || c = '\r' || c = '\x0b' || c = '\x0c'

/-- Python `str.lower()` restricted to its ASCII behaviour (all strings
manipulated by the program are ASCII), character by character. -/
def lowerData (l : List Char) : List Char :=
  l.map Char.toLower

/-- Python `s.lower()` on strings. -/
def pyLower (s : String) : String :=
  String.mk (lowerData s.data)

/-- Python `s.strip()` on a character list: drop whitespace from both ends. -/
def stripData (l : List Char) : List Char :=
  ((l.dropWhile pyIsSpace).reverse.dropWhile pyIsSpace).reverse

/-- Python `s.strip()` on strings. -/
def pyStrip (s : String) : String :=
  String.mk (stripData s.data)

/-- Boolean prefix test on character lists. -/
def isPrefixData : List Char → List Char → Bool
  | [], _ => true
  | _ :: _, [] => false
  | a :: as, b :: bs => a = b && isPrefixData as bs

/-- Boolean substring test on character lists: `n` occurs contiguously in `h`. -/
def isSubData : List Char → List Char → Bool
  | n, [] => n.isEmpty
  | n, c :: t => isPrefixData n (c :: t) || isSubData n t

/-- Python `needle in hay` substring containment on strings. -/
def pyContains (needle hay : String) : Bool :=
  isSubData needle.data hay.data

/-- Worker for Python `str.split()` (split on whitespace runs, dropping
empty pieces); `acc` holds the characters of the current word, reversed. -/
def splitWsAux : List Char → List Char → List String
  | [], acc => if acc.isEmpty then [] else [String.mk acc.reverse]
  | c :: cs, acc =>
    if pyIsSpace c then
      if acc.isEmpty then splitWsAux cs [] else String.mk acc.reverse :: splitWsAux cs []
    else
      splitWsAux cs (c :: acc)

/-- Python `s.split()` with no separator argument. -/
def pySplitWords (s : String) : List String :=
  splitWsAux s.data []

/-!
## Text Segmenter — `chunk_text` (main.py lines 197-216)

The Python loop keeps `current_chunk` as a list of words and a running
`current_size`; a chunk is flushed (joined with single spaces) when the
running size would exceed `chunk_size`.  `chunkWordsAux` mirrors the loop
returning each chunk as its word list; `sepJoin` is `" ".join`.
-/

/-- Python `" ".join(words)`: a single space between consecutive elements. -/
def sepJoin : List String → String
  | [] => ""
  | [w] => w
  | w :: ws => w ++ " " ++ sepJoin ws

/-- The loop body of `chunk_text`: `current_chunk` and `current_size` are
the Python locals of the same names; flushing appends the pending chunk
(even when it is empty, exactly as the Python code does). -/
def chunkWordsAux (chunk_size : Nat) : List String → List String → Nat → List (List String)
  | [], current_chunk, _ =>
    if current_chunk.isEmpty then [] else [current_chunk]
  | word :: words, current_chunk, current_size =>
    let size' := current_size + word.length + 1
    if chunk_size < size' then
      current_chunk :: chunkWordsAux chunk_size words [word] word.length
    else
      chunkWordsAux chunk_size words (current_chunk ++ [word]) size'

/-- `chunk_text(text, chunk_size)` from main.py: split into words, fold the
accumulation loop, join each chunk with single spaces. -/
def chunk_text (text : String) (chunk_size : Nat := 1000) : List String :=
  (chunkWordsAux chunk_size (pySplitWords text) [] 0).map sepJoin

/-- The character length of a chunk once joined with single spaces:
sum of word lengths plus one separator per word boundary. -/
def chunkLen (c : List String) : Nat :=
  (c.map String.length).sum + (c.length - 1)

/-!
## Citation Finder — `find_citations` (main.py lines 371-399)
-/

/-- Python `text.split(sep)` for a single-character separator, keeping
empty pieces (exactly like `"a..b".split(".") == ["a","","b"]`). -/
def splitOnCharKeep (sep : Char) : List Char → List (List Char)
  | [] => [[]]
  | c :: cs =>
    match splitOnCharKeep sep cs with
    | [] => [[c]]
    | g :: gs => if c = sep then [] :: g :: gs else (c :: g) :: gs

/-- `set(query.lower().split())` from `find_citations`: the distinct
lowercased query words (a Python set; only membership and cardinality of
matches are used, both order-independent, so a deduplicated list is a
faithful model). -/
def queryWords (query : String) : List String :=
  (pySplitWords (pyLower query)).dedup

/-- Number of distinct query words occurring as substrings of the
lowercased text — `sum(1 for word in query_words if word in text.lower())`. -/
def sentMatches (qws : List String) (s : String) : Nat :=
  (qws.filter (fun w => pyContains w (pyLower s))).length

/-- The sentence-selection loop of `find_citations`: scans the candidate
sentences keeping the first one that strictly improves the match count;
the chosen sentence is stored stripped, as in the Python code. -/
def bestSentenceAux (qws : List String) : List String → String → Nat → String
  | [], best_sentence, _ => best_sentence
  | sentence :: rest, best_sentence, max_matches =>
    let sent_matches := sentMatches qws sentence
    if max_matches < sent_matches then
      bestSentenceAux qws rest (pyStrip sentence) sent_matches
    else
      bestSentenceAux qws rest best_sentence max_matches

/-- `best_sentence[:200] + "..." if len(best_sentence) > 200 else best_sentence`. -/
def truncSnippet (s : String) : String :=
  if 200 < s.length then String.mk (s.data.take 200) ++ "..." else s

/-- The `"page"` field of a citation: `int(page_num)` when the key is all
digits, otherwise the raw string key. -/
inductive PageRef where
  | num (n : Int)
  | raw (s : String)
deriving DecidableEq

/-- Decimal value of a digit string (Python `int` on an all-digit string). -/
def decimalVal (l : List Char) : Int :=
  l.foldl (fun n c => n * 10 + ((c.toNat : Int) - 48)) 0

/-- `int(page_num) if page_num.isdigit() else page_num`. -/
def pageRefOf (page_num : String) : PageRef :=
  if !page_num.data.isEmpty && page_num.data.all Char.isDigit then
    .num (decimalVal page_num.data)
  else
    .raw page_num

/-- A citation record as built by `find_citations`. -/
structure Citation where
  page : PageRef
  snippet : String
  relevance : Nat
deriving DecidableEq

/-- The per-page body of the `find_citations` loop: count whole-text
matches, pick the best of the first 10 period-separated sentences and,
when both are non-trivial, build the citation record. -/
def citeOfPage (qws : List String) (pg : String × String) : Option Citation :=
  let numMatches := sentMatches qws pg.2
  if 0 < numMatches then
    let sentences := ((splitOnCharKeep '.' pg.2.data).map (fun l => String.mk l)).take 10
    let best_sentence := bestSentenceAux qws sentences "" 0
    if best_sentence = "" then none
    else some ⟨pageRefOf pg.1, truncSnippet best_sentence, numMatches⟩
  else none

/-- Relevance-descending comparison used to model the stable
`citations.sort(key=lambda x: x["relevance"], reverse=True)`. -/
def relGe (a b : Citation) : Prop :=
  b.relevance ≤ a.relevance

instance : DecidableRel relGe := fun a b => Nat.decLe b.relevance a.relevance

instance : IsTotal Citation relGe :=
  ⟨fun a b => le_total b.relevance a.relevance⟩

instance : IsTrans Citation relGe :=
  ⟨fun _ _ _ h1 h2 => le_trans h2 h1⟩

/-- `find_citations(query, pages_text, top_k)` from main.py.  The page map
is an association list in insertion order (Python dict iteration order);
the Python stable sort is modelled by insertion sort, which is stable for
this comparison. -/
def find_citations (query : String) (pages_text : List (String × String)) (top_k : Nat := 3) :
    List Citation :=
  ((pages_text.filterMap (citeOfPage (queryWords query))).insertionSort relGe).take top_k

/-!
## Response Parser — the parsing section of `generate_quiz` (main.py 635-688)

`json.loads` is the only library routine involved; it is embedded as a
recursive-descent parser over the character list with a fuel argument for
termination.  The subset parsed (null, booleans, integer numerals,
strings with the single-character escapes, arrays, objects) covers every
value the program ever feeds it; numbers with fractional or exponent
parts and `\u` escapes are rejected, which no claim exercises.
-/

/-- A parsed JSON value.  Objects keep their key/value pairs in source
order (later duplicates shadow earlier ones on lookup, like a dict). -/
inductive Json where
  | null
  | bool (b : Bool)
  | num (n : Int)
  | str (s : String)
  | arr (elems : List Json)
  | obj (fields : List (String × Json))

/-- JSON insignificant whitespace. -/
def jsonWs (c : Char) : Bool :=
  c = ' ' || c = '\t' || c = '\n' || c = '\r'

/-- Skip insignificant whitespace. -/
def skipWsJ (cs : List Char) : List Char :=
  cs.dropWhile jsonWs

/-- Single-character JSON string escapes (`\uXXXX` unsupported). -/
def unescapeChar (c : Char) : Option Char :=
  if c = '"' then some '"'
  else if c = '\\' then some '\\'
  else if c = '/' then some '/'
  else if c = 'b' then some '\x08'
  else if c = 'f' then some '\x0c'
  else if c = 'n' then some '\n'
  else if c = 'r' then some '\r'
  else if c = 't' then some '\t'
  else none

/-- Parse the body of a JSON string after the opening quote: `acc` holds
the accepted characters reversed.  Unescaped control characters are
rejected, as `json.loads` does in strict mode. -/
def parseStrBody : List Char → List Char → Option (String × List Char)
  | [], _ => none
  | '"' :: rest, acc => some (String.mk acc.reverse, rest)
  | '\\' :: [], _ => none
  | '\\' :: e :: rest, acc =>
    match unescapeChar e with
    | some u => parseStrBody rest (u :: acc)
    | none => none
  | c :: rest, acc =>
    if c.toNat < 32 then none else parseStrBody rest (c :: acc)

/-- Parse an integer numeral (optional leading minus).  A following `.`,
`e` or `E` would start a float, which this subset rejects. -/
def parseIntNum (cs : List Char) : Option (Int × List Char) :=
  let (neg, cs') := match cs with
    | '-' :: t => (true, t)
    | _ => (false, cs)
  let ds := cs'.takeWhile Char.isDigit
  let rest := cs'.dropWhile Char.isDigit
  if ds.isEmpty then none
  else
    match rest with
    | '.' :: _ => none
    | 'e' :: _ => none
    | 'E' :: _ => none
    | _ =>
      let v : Int := ds.foldl (fun n c => n * 10 + ((c.toNat : Int) - 48)) 0
      some (if neg then -v else v, rest)

/-- Parser mode: a single value, the element loop of an array, or the
member loop of an object (each loop carries its reversed accumulator). -/
inductive PMode where
  | val
  | arrTail (acc : List Json)
  | objTail (acc : List (String × Json))

/-- Fuel-indexed recursive-descent JSON parser.  Returns the parsed value
and the unconsumed input. -/
def parseJsonAux : Nat → PMode → List Char → Option (Json × List Char)
  | 0, _, _ => none
  | fuel + 1, .val, cs =>
    match skipWsJ cs with
    | 'n' :: 'u' :: 'l' :: 'l' :: rest => some (.null, rest)
    | 't' :: 'r' :: 'u' :: 'e' :: rest => some (.bool true, rest)
    | 'f' :: 'a' :: 'l' :: 's' :: 'e' :: rest => some (.bool false, rest)
    | '"' :: rest => (parseStrBody rest []).map (fun p => (.str p.1, p.2))
    | '[' :: rest =>
      (match skipWsJ rest with
       | ']' :: rest2 => some (.arr [], rest2)
       | _ => parseJsonAux fuel (.arrTail []) rest)
    | '\x7b' :: rest =>
      (match skipWsJ rest with
       | '\x7d' :: rest2 => some (.obj [], rest2)
       | _ => parseJsonAux fuel (.objTail []) rest)
    | other => (parseIntNum other).map (fun p => (.num p.1, p.2))
  | fuel + 1, .arrTail acc, cs =>
    match parseJsonAux fuel .val cs with
    | some (v, rest) =>
      (match skipWsJ rest with
       | ',' :: rest2 => parseJsonAux fuel (.arrTail (v :: acc)) rest2
       | ']' :: rest2 => some (.arr (v :: acc).reverse, rest2)
       | _ => none)
    | none => none
  | fuel + 1, .objTail acc, cs =>
    match skipWsJ cs with
    | '"' :: rest =>
      (match parseStrBody rest [] with
       | some (k, rest2) =>
         (match skipWsJ rest2 with
          | ':' :: rest3 =>
            (match parseJsonAux fuel .val rest3 with
             | some (v, rest4) =>
               (match skipWsJ rest4 with
                | ',' :: rest5 => parseJsonAux fuel (.objTail ((k, v) :: acc)) rest5
                | '\x7d' :: rest5 => some (.obj ((k, v) :: acc).reverse, rest5)
                | _ => none)
             | none => none)
          | _ => none)
       | none => none)
    | _ => none

/-- `json.loads(s)`: parse one value and require only whitespace after it. -/
def pyJsonLoads (s : String) : Option Json :=
  match parseJsonAux (2 * s.length + 4) .val s.data with
  | some (v, rest) => if (skipWsJ rest).isEmpty then some v else none
  | none => none

/-- Python `s.split("\n")`, keeping empty pieces, as lines. -/
def splitLinesNL (s : String) : List String :=
  (splitOnCharKeep '\n' s.data).map (fun l => String.mk l)

/-- Python `"\n".join(lines)`. -/
def joinLinesNL : List String → String
  | [] => ""
  | [l] => l
  | l :: ls => l ++ "\n" ++ joinLinesNL ls

/-- Python `s.startswith(pre)`. -/
def pyStartsWith (pre s : String) : Bool :=
  isPrefixData pre.data s.data

/-- Python `s.find(c)` for a single character, as an `Option` index. -/
def findCharIdx (c : Char) : List Char → Option Nat
  | [] => none
  | x :: xs => if x = c then some 0 else (findCharIdx c xs).map (· + 1)

/-- Python `s.rfind(c)` for a single character, as an `Option` index. -/
def rfindCharIdx (c : Char) (l : List Char) : Option Nat :=
  (findCharIdx c l.reverse).map (fun i => l.length - 1 - i)

/-- The response-cleaning steps of `generate_quiz` (main.py 636-649):
strip, remove markdown code-fence lines, then slice from the first `[`
to the last `]` when the text does not already start with `[`. -/
def cleanResponse (response : String) : String :=
  let r := pyStrip response
  let r :=
    if pyStartsWith "```" r then
      pyStrip (joinLinesNL ((splitLinesNL r).filter (fun line => !pyStartsWith "```" line)))
    else r
  if pyStartsWith "[" r then r
  else
    match findCharIdx '[' r.data with
    | none => r
    | some start =>
      let stop := match rfindCharIdx ']' r.data with
        | some j => j + 1
        | none => 0
      if start < stop then String.mk ((r.data.drop start).take (stop - start)) else r

/-- The `QuizQuestion` pydantic schema (main.py 82-87). -/
structure QuizQuestion where
  question : String
  options : Option (List String)
  correct_answer : String
  explanation : String
  question_type : String
deriving DecidableEq

/-- Last-occurrence field lookup on a JSON object, matching the fact that
`json.loads` builds a dict in which later duplicate keys win. -/
def lookupField (fields : List (String × Json)) (key : String) : Option Json :=
  (fields.reverse.find? (fun kv => kv.1 == key)).map (·.2)

/-- Require every element of a JSON array to be a string
(`Optional[List[str]]` accepts no coercion from other JSON types). -/
def allStrings : List Json → Option (List String)
  | [] => some []
  | .str s :: rest => (allStrings rest).map (fun l => s :: l)
  | _ :: _ => none

/-- `QuizQuestion(**q)` validation: the four required fields must be
present as strings, `options` may be absent, `null`, or a list of
strings; anything else raises inside the per-element `try` and the
element is dropped.  Non-object elements fail the same way. -/
def validateQuizQuestion : Json → Option QuizQuestion
  | .obj fields =>
    match lookupField fields "question", lookupField fields "question_type",
          lookupField fields "correct_answer", lookupField fields "explanation" with
    | some (.str q), some (.str qt), some (.str ca), some (.str ex) =>
      (match lookupField fields "options" with
       | none => some ⟨q, none, ca, ex, qt⟩
       | some .null => some ⟨q, none, ca, ex, qt⟩
       | some (.arr os) => (allStrings os).map (fun l => ⟨q, some l, ca, ex, qt⟩)
       | some _ => none)
    | _, _, _, _ => none
  | _ => none

/-- What `for q in questions_data` iterates over: arrays yield elements,
strings yield their one-character substrings, dicts yield their keys;
other values raise `TypeError`, which the outer `except` turns into the
parse-failure placeholder. -/
def iterElems : Json → Option (List Json)
  | .arr elems => some elems
  | .str s => some (s.data.map (fun c => .str (String.mk [c])))
  | .obj fields => some (fields.map (fun kv => .str kv.1))
  | _ => none

/-- The placeholder substituted when parsing the LLM response raises
(main.py 669-677). -/
def fallbackParseFailQuestion : QuizQuestion :=
  ⟨"What is the main topic discussed in the material?", none,
   "Please refer to the study material",
   "This is a template question. Configure AI service for personalized questions.", "SAQ"⟩

/-- The placeholder substituted when validation leaves no questions
(main.py 679-688). -/
def fallbackEmptyQuestion : QuizQuestion :=
  ⟨"What are the key concepts covered?", none, "Refer to course material",
   "Template question - AI service needed for custom questions", "SAQ"⟩

/-- The response-parsing/validation portion of `generate_quiz`
(main.py 635-688): clean the raw text, `json.loads` it, validate each
element individually, and substitute exactly one placeholder question on
parse failure or an empty validated list. -/
def generate_quiz_questions (response : String) : List QuizQuestion :=
  match pyJsonLoads (cleanResponse response) with
  | none => [fallbackParseFailQuestion]
  | some v =>
    match iterElems v with
    | none => [fallbackParseFailQuestion]
    | some elems =>
      let validated := elems.filterMap validateQuizQuestion
      if validated.isEmpty then [fallbackEmptyQuestion] else validated

/-!
## Quiz submission — `submit_quiz` (main.py 713-764)

Scores are exact small decimals, so the float `score_percentage` is
modelled in `ℚ`.
-/

/-- One element of the submitted `answers` array (`QuizAnswer` schema). -/
structure QuizAnswer where
  question_index : Int
  user_answer : String
deriving DecidableEq

/-- One element of the per-question `results` list. -/
structure QuestionResult where
  question_index : Nat
  question : String
  user_answer : String
  correct_answer : String
  is_correct : Bool
  explanation : String
deriving DecidableEq

/-- The grading response of `submit_quiz` (quiz id and timestamp omitted:
they are opaque identifiers, not computed data). -/
structure SubmitResult where
  total_questions : Nat
  correct_answers : Nat
  score_percentage : ℚ
  results : List QuestionResult
deriving DecidableEq

/-- `answer_map.get(idx, "")` where
`answer_map = {ans.question_index: ans.user_answer for ans in answers}`:
dict comprehension keeps the last entry for a duplicated key. -/
def answer_map_get (answers : List QuizAnswer) (idx : Int) : String :=
  match answers.reverse.find? (fun a => a.question_index == idx) with
  | some a => a.user_answer
  | none => ""

/-- `s.strip().lower()` as applied to both sides of the grading equality. -/
def stripLower (s : String) : String :=
  pyLower (pyStrip s)

/-- The body of the grading loop for one `(idx, question)` pair. -/
def gradeOne (answers : List QuizAnswer) (idx : Nat) (question : QuizQuestion) :
    QuestionResult :=
  let user_answer := answer_map_get answers (idx : Int)
  let correct_answer := question.correct_answer
  let is_correct := stripLower user_answer == stripLower correct_answer
  ⟨idx, question.question, user_answer, correct_answer, is_correct, question.explanation⟩

/-- `for idx, question in enumerate(questions)` building `results`. -/
def gradeLoop (answers : List QuizAnswer) (idx : Nat) : List QuizQuestion → List QuestionResult
  | [] => []
  | q :: qs => gradeOne answers idx q :: gradeLoop answers (idx + 1) qs

/-- The grading core of `submit_quiz`: per-question results, correct
count, and `(correct_count / len(questions)) * 100 if questions else 0`. -/
def submit_quiz (questions : List QuizQuestion) (answers : List QuizAnswer) : SubmitResult :=
  let results := gradeLoop answers 0 questions
  let correct_count := (results.filter (fun r => r.is_correct)).length
  let score_percentage : ℚ :=
    if questions.isEmpty then 0 else ((correct_count : ℚ) / questions.length) * 100
  ⟨questions.length, correct_count, score_percentage, results⟩

/-!
## Progress aggregation — `get_progress` (main.py 931-989)
-/

/-- A stored quiz attempt as read back by `get_progress` (date omitted:
only used for the `recent_attempts` echo, not for any aggregate). -/
structure QuizAttemptRec where
  total_questions : Nat
  correct_answers : Nat
  score_percentage : ℚ
deriving DecidableEq

/-- Python 3 `round` ties-to-even on an exact rational. -/
def roundHalfEven (x : ℚ) : ℤ :=
  let n := ⌊x⌋
  let f := x - n
  if f < 1 / 2 then n
  else if 1 / 2 < f then n + 1
  else if n % 2 = 0 then n else n + 1

/-- Python `round(x, 1)`. -/
def pyRound1 (x : ℚ) : ℚ :=
  (roundHalfEven (10 * x) : ℚ) / 10

/-- The aggregate statistics returned by `get_progress`
(`recent_attempts`, a date-stamped echo of the newest 10 inputs, is
omitted: no claim concerns it). -/
structure ProgressStats where
  total_quizzes : Nat
  total_questions_answered : Nat
  overall_score : ℚ
  strengths : List String
  weaknesses : List String
deriving DecidableEq

/-- `get_progress` over the (most recent, at most 100) stored attempts:
totals, the simple average of per-attempt percentages rounded to one
decimal, and the heuristic strength/weakness labels. -/
def get_progress (attempts : List QuizAttemptRec) : ProgressStats :=
  if attempts.isEmpty then ⟨0, 0, 0, [], []⟩
  else
    let total_questions := (attempts.map (fun a => a.total_questions)).sum
    let total_score := (attempts.map (fun a => a.score_percentage)).sum
    let avg_score := total_score / attempts.length
    let high_scores := attempts.filter (fun a => decide ((80 : ℚ) ≤ a.score_percentage))
    let low_scores := attempts.filter (fun a => decide (a.score_percentage < (60 : ℚ)))
    let strengths :=
      (if high_scores.isEmpty then []
       else ["Consistently scoring well (" ++ toString high_scores.length ++
             " quizzes above 80%)"]) ++
      (if (70 : ℚ) ≤ avg_score then ["Strong overall performance"] else [])
    let weaknesses :=
      if low_scores.isEmpty then []
      else ["Some challenging areas (" ++ toString low_scores.length ++ " quizzes below 60%)"]
    ⟨attempts.length, total_questions, pyRound1 avg_score, strengths, weaknesses⟩

/-- Modelled from the spec and claim wording, for comparison with the
code: the overall score as the global weighted average of correct
answers over total questions across all attempts, in percent. -/
def specWeightedOverallScore (attempts : List QuizAttemptRec) : ℚ :=
  let totalQ := (attempts.map (fun a => a.total_questions)).sum
  let totalC := (attempts.map (fun a => a.correct_answers)).sum
  if totalQ = 0 then 0 else 100 * (totalC : ℚ) / totalQ

/-!
## Fallback Response Generator — `get_fallback_response` (main.py 312-369)
-/

/-- The conversational fallback text (main.py 317-330), byte-for-byte. -/
def conversationalFallbackText : String :=
  "I understand you have a question, but I\x27m currently running in fallback mode without access to the AI service. \n\nTo get full AI-powered responses, please:\n1. Set your OPENROUTER_API_KEY in the .env file\n2. Get a free API key from: https://openrouter.ai/keys\n3. Restart the server\n\nIn the meantime, I can still help you with:\n- Uploading and viewing PDFs\n- Generating structured quiz questions (with basic templates)\n- Tracking your progress\n- Managing your study materials\n\nWhat would you like to do?"

/-- `json.dumps` output for the templated quiz SAQ (main.py 334-342):
default separators, insertion-ordered keys. -/
def quizFallbackJson : String :=
  "[\x7b\"question\": \"What is the fundamental principle discussed in the material?\", \"question_type\": \"SAQ\", \"options\": null, \"correct_answer\": \"Please refer to the study material for the correct answer\", \"explanation\": \"This is a template question. Connect the AI service for personalized questions.\"\x7d]"

/-- The generic fallback message (main.py 369). -/
def genericFallbackText : String :=
  "I\x27m currently operating in fallback mode. Please configure the OPENROUTER_API_KEY to enable full AI capabilities."

/-- Four hex digits, as `json.dumps` emits for `\u00XX` escapes. -/
def hexDigit (n : Nat) : Char :=
  if n < 10 then Char.ofNat (48 + n) else Char.ofNat (87 + n)

/-- `json.dumps` escaping of one character inside a string literal. -/
def jsonEscapeChar (c : Char) : List Char :=
  if c = '"' then ['\\', '"']
  else if c = '\\' then ['\\', '\\']
  else if c = '\n' then ['\\', 'n']
  else if c = '\t' then ['\\', 't']
  else if c = '\r' then ['\\', 'r']
  else if c = '\x08' then ['\\', 'b']
  else if c = '\x0c' then ['\\', 'f']
  else if c.toNat < 32 then
    ['\\', 'u', '0', '0', hexDigit (c.toNat / 16), hexDigit (c.toNat % 16)]
  else [c]

/-- `json.dumps` rendering of an ASCII string value, quotes included. -/
def jsonDumpStr (s : String) : String :=
  String.mk ('"' :: (s.data.flatMap jsonEscapeChar) ++ ['"'])

/-- One video entry as `json.dumps` renders it inside the fallback list. -/
def youtubeEntry (title channel reason : String) : String :=
  "\x7b\"title\": " ++ jsonDumpStr title ++ ", \"channel\": " ++ jsonDumpStr channel ++
    ", \"reason\": " ++ jsonDumpStr reason ++ "\x7d"

/-- The templated YouTube fallback (main.py 350-366) for a given topic. -/
def youtubeFallbackJson (topic : String) : String :=
  "[" ++
    youtubeEntry ("Introduction to " ++ topic) "Khan Academy"
      "Clear and comprehensive explanations suitable for beginners" ++ ", " ++
    youtubeEntry ("Advanced concepts in " ++ topic) "Crash Course"
      "In-depth coverage with engaging visuals" ++ ", " ++
    youtubeEntry ("Practical applications of " ++ topic) "Physics Wallah"
      "Real-world examples and problem-solving techniques" ++
  "]"

/-- Python `prompt.split(":")[-1]`. -/
def lastColonPiece (s : String) : String :=
  match (splitOnCharKeep ':' s.data).reverse with
  | [] => ""
  | piece :: _ => String.mk piece

/-- `get_fallback_response(prompt, system_prompt)` (main.py 312-369):
substring dispatch over the lowercased prompt, checked in source order.
`system_prompt` is accepted and ignored, as in the Python code. -/
def get_fallback_response (prompt _system_prompt : String) : String :=
  let pl := pyLower prompt
  if pyContains "question" pl || pyContains "explain" pl || pyContains "what" pl then
    conversationalFallbackText
  else if pyContains "generate" pl && pyContains "quiz" pl then
    quizFallbackJson
  else if pyContains "youtube" pl || pyContains "video" pl then
    let topic :=
      if pyContains ":" prompt then String.mk ((pyStrip (lastColonPiece prompt)).data.take 50)
      else "this topic"
    youtubeFallbackJson topic
  else
    genericFallbackText

/-!
## PDF upload error path — `upload_pdf` / `extract_text_from_pdf`
(main.py 460-522 and 160-195)

The filesystem effect relevant to claim C8 is reduced to one boolean:
whether the file saved at the start of `upload_pdf` is still on disk when
the handler finishes.  The three extraction libraries and `fitz.open`
are external collaborators; their outcomes are the inputs of the model.
-/

/-- An `HTTPException(status_code, detail)`. -/
structure HTTPError where
  status_code : Nat
  detail : String
deriving DecidableEq

/-- The 422 detail raised when every extraction strategy fails. -/
def extractFailDetail : String :=
  "Unable to extract text from PDF. The file might be corrupted, password-protected, or image-based."

/-- `extract_text_from_pdf` (main.py 160-195): try pdfplumber, PyMuPDF,
PyPDF2 in order; if all yield nothing, build placeholder pages when
`fitz` can open the file and reports a positive page count, else raise
422.  Inputs are the page maps each library produced (empty for
failure/no text) and the `fitz` page count (`none` if `fitz.open`
raised). -/
def extract_text_from_pdf (plumberPages pymupdfPages pypdf2Pages : List (String × String))
    (fitzPageCount : Option Nat) : Except HTTPError (List (String × String)) :=
  if !plumberPages.isEmpty then .ok plumberPages
  else if !pymupdfPages.isEmpty then .ok pymupdfPages
  else if !pypdf2Pages.isEmpty then .ok pypdf2Pages
  else
    match fitzPageCount with
    | some total_pages =>
      if 0 < total_pages then
        .ok ((List.range total_pages).map
          (fun i => (toString (i + 1), "[Image-based page - OCR needed]")))
      else .error ⟨422, extractFailDetail⟩
    | none => .error ⟨422, extractFailDetail⟩

/-- Outcome of the upload handler after the file was saved. -/
inductive UploadOutcome where
  | ok (total_pages : Nat) (is_image_based : Bool)
  | httpError (e : HTTPError)
deriving DecidableEq

/-- The remainder of `upload_pdf` after the incoming file has been fully
saved to disk (main.py 482-522), paired with whether the saved file is
still on disk at the end.  An `HTTPException` from extraction propagates
through the bare `except HTTPException: raise` branch, which performs no
cleanup; only the dead `if not pages_text` branch and the generic
`except Exception` branch call `os.remove`. -/
def upload_pdf_after_save (plumberPages pymupdfPages pypdf2Pages : List (String × String))
    (fitzPageCount : Option Nat) : UploadOutcome × Bool :=
  match extract_text_from_pdf plumberPages pymupdfPages pypdf2Pages fitzPageCount with
  | .error e => (.httpError e, true)
  | .ok pages_text =>
    if pages_text.isEmpty then
      (.httpError ⟨422, "No text could be extracted from this PDF."⟩, false)
    else
      let has_real_text :=
        pages_text.any (fun pt => !pyContains "[Image-based page" pt.2)
      (.ok pages_text.length (!has_real_text), true)

theorem sepJoin_length (c : List String) : (sepJoin c).length = chunkLen c := by
  match c with
  | [] => rfl
  | [w] => simp [sepJoin, chunkLen]
  | w :: x :: ws =>
    have ih := sepJoin_length (x :: ws)
    have hsp : (" " : String).length = 1 := rfl
    simp only [sepJoin, chunkLen, String.length_append, List.map_cons, List.sum_cons,
      List.length_cons, hsp] at ih ⊢
    omega

theorem chunkWordsAux_flatten (chunk_size : Nat) :
    ∀ (ws cur : List String) (size : Nat),
      (chunkWordsAux chunk_size ws cur size).flatten = cur ++ ws := by
  intro ws
  induction ws with
  | nil =>
    intro cur size
    cases cur with
    | nil => simp [chunkWordsAux]
    | cons a l => simp [chunkWordsAux]
  | cons w ws ih =>
    intro cur size
    simp only [chunkWordsAux]
    by_cases h : chunk_size < size + w.length + 1
    · simp [h, ih]
    · simp [h, ih]

theorem chunkWordsAux_size (chunk_size : Nat) :
    ∀ (ws cur : List String) (size : Nat),
      chunkLen cur ≤ size →
      (2 ≤ cur.length → chunkLen cur ≤ chunk_size) →
      ∀ c ∈ chunkWordsAux chunk_size ws cur size, 2 ≤ c.length → chunkLen c ≤ chunk_size := by
  intro ws
  induction ws with
  | nil =>
    intro cur size _ h2 c hc
    cases cur with
    | nil => simp [chunkWordsAux] at hc
    | cons a l =>
      simp only [chunkWordsAux, List.isEmpty_cons, if_false, Bool.false_eq_true,
        List.mem_singleton] at hc
      subst hc
      exact h2
  | cons w ws ih =>
    intro cur size h1 h2 c hc
    simp only [chunkWordsAux] at hc
    have hlen : chunkLen (cur ++ [w]) ≤ size + w.length + 1 := by
      rcases cur with _ | ⟨a, cur'⟩
      · simp only [List.nil_append, chunkLen, List.map_cons, List.map_nil, List.sum_cons,
          List.sum_nil, List.length_cons, List.length_nil]
        omega
      · simp only [chunkLen, List.map_append, List.sum_append, List.length_append,
          List.map_cons, List.sum_cons, List.length_cons, List.map_nil, List.sum_nil,
          List.length_nil] at h1 ⊢
        omega
    by_cases h : chunk_size < size + w.length + 1
    · simp only [h, if_true, List.mem_cons] at hc
      rcases hc with hc | hc
      · subst hc; exact h2
      · refine ih [w] w.length (by simp [chunkLen]) (by simp) c hc
    · simp only [h, if_false] at hc
      refine ih (cur ++ [w]) (size + w.length + 1) hlen ?_ c hc
      intro _
      exact le_trans hlen (Nat.le_of_not_lt h)

theorem isPrefixData_iff : ∀ n h : List Char, isPrefixData n h = true ↔ n <+: h
  | [], h => by simp [isPrefixData, List.nil_prefix]
  | a :: as, [] => by simp [isPrefixData, List.prefix_nil]
  | a :: as, b :: bs => by
    simp [isPrefixData, List.cons_prefix_cons, Bool.and_eq_true, decide_eq_true_eq,
      isPrefixData_iff as bs]

theorem isSubData_iff : ∀ n h : List Char, isSubData n h = true ↔ n <:+: h
  | n, [] => by
    constructor
    · intro h
      have : n = [] := List.isEmpty_iff.mp h
      subst this
      exact List.nil_infix
    · intro h
      have : n = [] := List.sublist_nil.mp h.sublist
      simp [this, isSubData]
  | n, c :: t => by
    simp [isSubData, Bool.or_eq_true, isPrefixData_iff, isSubData_iff n t,
      List.infix_cons_iff]

theorem pyContains_iff (w s : String) :
    pyContains w s = true ↔ w.data <:+: s.data :=
  isSubData_iff w.data s.data

theorem splitWsAux_wordsSpec :
    ∀ (cs acc : List Char), (∀ c ∈ acc, pyIsSpace c = false) →
      ∀ w ∈ splitWsAux cs acc, w.data ≠ [] ∧ ∀ c ∈ w.data, pyIsSpace c = false := by
  intro cs
  induction cs with
  | nil =>
    intro acc hacc w hw
    cases acc with
    | nil => simp [splitWsAux] at hw
    | cons a l =>
      simp only [splitWsAux, List.isEmpty_cons, if_false, Bool.false_eq_true,
        List.mem_singleton] at hw
      subst hw
      refine ⟨by simp, ?_⟩
      intro c hc
      exact hacc c (List.mem_reverse.mp hc)
  | cons c cs ih =>
    intro acc hacc w hw
    by_cases hc : pyIsSpace c = true
    · cases acc with
      | nil =>
        simp only [splitWsAux, hc, if_true, List.isEmpty_nil] at hw
        exact ih [] (by simp) w hw
      | cons a l =>
        simp only [splitWsAux, hc, if_true, List.isEmpty_cons, Bool.false_eq_true,
          if_false, List.mem_cons] at hw
        rcases hw with hw | hw
        · subst hw
          refine ⟨by simp, ?_⟩
          intro d hd
          exact hacc d (List.mem_reverse.mp hd)
        · exact ih [] (by simp) w hw
    · simp only [splitWsAux, hc, if_false] at hw
      refine ih (c :: acc) ?_ w hw
      intro d hd
      rcases List.mem_cons.mp hd with hd | hd
      · subst hd; exact Bool.eq_false_iff.mpr hc
      · exact hacc d hd

theorem queryWords_wordsSpec (query : String) :
    ∀ w ∈ queryWords query, w.data ≠ [] ∧ ∀ c ∈ w.data, pyIsSpace c = false := by
  intro w hw
  have hmem : w ∈ pySplitWords (pyLower query) := List.mem_dedup.mp hw
  exact splitWsAux_wordsSpec (pyLower query).data [] (by simp) w hmem

theorem toLower_of_space (c : Char) (h : pyIsSpace c = true) : c.toLower = c := by
  simp only [pyIsSpace, Bool.or_eq_true, decide_eq_true_eq] at h
  rcases h with ((((h | h) | h) | h) | h) | h <;> subst h <;> decide

theorem infix_lowerData_dropWhile (w : List Char) (hw : w ≠ [])
    (hws : ∀ c ∈ w, pyIsSpace c = false) :
    ∀ l : List Char, w <:+: lowerData l → w <:+: lowerData (l.dropWhile pyIsSpace) := by
  intro l
  induction l with
  | nil => intro h; simpa using h
  | cons c t ih =>
    intro h
    by_cases hc : pyIsSpace c = true
    · rw [List.dropWhile_cons, if_pos hc]
      apply ih
      have h' : w <:+: c.toLower :: lowerData t := by simpa [lowerData] using h
      rcases List.infix_cons_iff.mp h' with hpre | hinf
      · rcases w with _ | ⟨x, w'⟩
        · exact absurd rfl hw
        · rcases List.cons_prefix_cons.mp hpre with ⟨hx, _⟩
          have hxs : pyIsSpace x = true := by
            rw [hx, toLower_of_space c hc]; exact hc
          have := hws x (List.mem_cons_self x w')
          rw [hxs] at this
          exact absurd this (by simp)
      · exact hinf
    · rw [List.dropWhile_cons, if_neg hc]
      simpa [lowerData] using h

theorem infix_lowerData_strip (w : List Char) (hw : w ≠ [])
    (hws : ∀ c ∈ w, pyIsSpace c = false) (l : List Char)
    (h : w <:+: lowerData l) : w <:+: lowerData (stripData l) := by
  have h1 := infix_lowerData_dropWhile w hw hws l h
  have h2 : w.reverse <:+: lowerData (l.dropWhile pyIsSpace).reverse := by
    rw [lowerData, List.map_reverse]
    exact List.reverse_infix.mpr h1
  have hw' : w.reverse ≠ [] := by simpa using hw
  have hws' : ∀ c ∈ w.reverse, pyIsSpace c = false :=
    fun c hc => hws c (List.mem_reverse.mp hc)
  have h3 := infix_lowerData_dropWhile w.reverse hw' hws'
    (l.dropWhile pyIsSpace).reverse h2
  have h4 := List.reverse_infix.mpr h3
  rw [List.reverse_reverse] at h4
  rw [stripData, lowerData, List.map_reverse]
  exact h4

/-- C4: for every text whose word list is non-empty and every chunk size,
the chunks of `chunk_text` carry exactly the original word sequence (so
joining them with one space per word boundary reconstructs it), and no
chunk with two or more words exceeds the configured size once joined. -/
theorem c4_segmenter_roundtrip_and_bound (text : String) (chunk_size : Nat)
    (_h : pySplitWords text ≠ []) :
    (chunkWordsAux chunk_size (pySplitWords text) [] 0).flatten = pySplitWords text ∧
    chunk_text text chunk_size = (chunkWordsAux chunk_size (pySplitWords text) [] 0).map sepJoin ∧
    ∀ c ∈ chunkWordsAux chunk_size (pySplitWords text) [] 0,
      2 ≤ c.length → (sepJoin c).length ≤ chunk_size := by
  refine ⟨by simpa using chunkWordsAux_flatten chunk_size (pySplitWords text) [] 0, rfl, ?_⟩
  intro c hc h2
  rw [sepJoin_length]
  exact chunkWordsAux_size chunk_size (pySplitWords text) [] 0 (by simp [chunkLen])
    (by simp [chunkLen]) c hc h2

/-- Witness for C4 at a concrete text and chunk size. -/
theorem c4_witness :
    (chunkWordsAux 5 (pySplitWords "aa bb cc dd") [] 0).flatten = pySplitWords "aa bb cc dd" ∧
    (sepJoin ["bb", "cc"]).length ≤ 5 :=
  ⟨(c4_segmenter_roundtrip_and_bound "aa bb cc dd" 5 (by decide)).1,
   (c4_segmenter_roundtrip_and_bound "aa bb cc dd" 5 (by decide)).2.2 ["bb", "cc"]
     (by decide) (by decide)⟩

theorem sentMatches_pos (qws : List String) (s : String) (h : 1 ≤ sentMatches qws s) :
    ∃ w ∈ qws, pyContains w (pyLower s) = true := by
  have hne : qws.filter (fun w => pyContains w (pyLower s)) ≠ [] := by
    intro he
    rw [sentMatches, he] at h
    simp at h
  rcases List.exists_mem_of_ne_nil _ hne with ⟨w, hw⟩
  rcases List.mem_filter.mp hw with ⟨hmem, hp⟩
  exact ⟨w, hmem, hp⟩

theorem bestSentenceAux_spec (qws : List String) :
    ∀ (sl : List String) (best : String) (m : Nat),
      (best = "" ∨ ∃ s0, best = pyStrip s0 ∧ 1 ≤ sentMatches qws s0) →
      (bestSentenceAux qws sl best m = "" ∨
       ∃ s0, bestSentenceAux qws sl best m = pyStrip s0 ∧ 1 ≤ sentMatches qws s0) := by
  intro sl
  induction sl with
  | nil => intro best m hb; exact hb
  | cons s rest ih =>
    intro best m hb
    simp only [bestSentenceAux]
    by_cases hlt : m < sentMatches qws s
    · simp only [hlt, if_true]
      exact ih (pyStrip s) (sentMatches qws s) (Or.inr ⟨s, rfl, by omega⟩)
    · simp only [hlt, if_false]
      exact ih best m hb

theorem citeOfPage_spec (qws : List String) (pg : String × String) (c : Citation)
    (h : citeOfPage qws pg = some c) :
    1 ≤ c.relevance ∧
    ∃ s, c.snippet = truncSnippet s ∧ ∃ s0, s = pyStrip s0 ∧ 1 ≤ sentMatches qws s0 := by
  simp only [citeOfPage] at h
  split at h
  · next h1 =>
    split at h
    · exact absurd h (by simp)
    · next h2 =>
      rcases bestSentenceAux_spec qws
          (((splitOnCharKeep '.' pg.2.data).map (fun l => String.mk l)).take 10) "" 0
          (Or.inl rfl) with he | ⟨s0, hs0, hm⟩
      · exact absurd he h2
      · rcases Option.some.inj h with rfl
        exact ⟨by simpa using h1, _, rfl, s0, hs0, hm⟩
  · exact absurd h (by simp)

theorem citation_keyword_after_strip (query : String) (s0 : String)
    (hm : 1 ≤ sentMatches (queryWords query) s0) :
    ∃ w ∈ queryWords query, pyContains w (pyLower (pyStrip s0)) = true := by
  rcases sentMatches_pos (queryWords query) s0 hm with ⟨w, hwmem, hwc⟩
  rcases queryWords_wordsSpec query w hwmem with ⟨hne, hsp⟩
  have hinf : w.data <:+: lowerData s0.data := (pyContains_iff w (pyLower s0)).mp hwc
  have hinf2 : w.data <:+: lowerData (stripData s0.data) :=
    infix_lowerData_strip w.data hne hsp s0.data hinf
  exact ⟨w, hwmem, (pyContains_iff w (pyLower (pyStrip s0))).mpr hinf2⟩

/-- C1 (amended): `find_citations` returns at most `top_k` citations,
sorted by non-increasing relevance; every returned citation has
relevance ≥ 1 and its snippet is the ellipsis-truncation of a stripped
sentence whose lowercase contains at least one query keyword; whenever
that sentence is at most 200 characters (no truncation), the snippet is
the sentence itself and therefore still contains a keyword.  (The
original claim asserted the keyword for the snippet unconditionally,
which truncation can defeat — see the counterexample.) -/
theorem c1_find_citations_amended (query : String) (pages_text : List (String × String))
    (top_k : Nat) :
    (find_citations query pages_text top_k).length ≤ top_k ∧
    List.Sorted relGe (find_citations query pages_text top_k) ∧
    ∀ c, c ∈ find_citations query pages_text top_k →
      1 ≤ c.relevance ∧
      ∃ s, c.snippet = truncSnippet s ∧
        (∃ w ∈ queryWords query, pyContains w (pyLower s) = true) ∧
        (s.length ≤ 200 → c.snippet = s) := by
  refine ⟨List.length_take_le _ _, ?_, ?_⟩
  · exact List.Pairwise.sublist (List.take_sublist _ _)
      (List.sorted_insertionSort relGe _)
  · intro c hc
    have hc2 : c ∈ (pages_text.filterMap (citeOfPage (queryWords query))).insertionSort relGe :=
      List.take_subset _ _ hc
    have hc3 : c ∈ pages_text.filterMap (citeOfPage (queryWords query)) :=
      (List.perm_insertionSort relGe _).mem_iff.mp hc2
    rcases List.mem_filterMap.mp hc3 with ⟨pg, _, hpg⟩
    rcases citeOfPage_spec (queryWords query) pg c hpg with ⟨hrel, s, hsnip, s0, rfl, hm⟩
    refine ⟨hrel, pyStrip s0, hsnip, citation_keyword_after_strip query s0 hm, ?_⟩
    intro hle
    rw [hsnip, truncSnippet, if_neg (by omega)]

/-- Witness for C1 at a concrete query and page map. -/
theorem c1_witness :
    1 ≤ (Citation.mk (.num 1) "a zebra" 1).relevance ∧
    ∃ s, (Citation.mk (.num 1) "a zebra" 1).snippet = truncSnippet s ∧
      (∃ w ∈ queryWords "zebra", pyContains w (pyLower s) = true) ∧
      (s.length ≤ 200 → (Citation.mk (.num 1) "a zebra" 1).snippet = s) :=
  (c1_find_citations_amended "zebra" [("1", "a zebra. x")] 3).2.2
    (Citation.mk (.num 1) "a zebra" 1) (by decide)

set_option maxRecDepth 8192 in
/-- Counterexample to C1 as stated: with query `"zebra"` and a single page
whose only sentence is 200 `x` characters followed by `" zebra"`, exactly
one citation is returned and its snippet (truncated at 200 characters)
contains no query keyword. -/
theorem c1_counterexample :
    ((find_citations "zebra" [("1", String.mk (List.replicate 200 'x') ++ " zebra")] 3).map
        (fun c => pyContains "zebra" (pyLower c.snippet))) = [false] ∧
    queryWords "zebra" = ["zebra"] := by
  constructor
  · decide
  · decide

/-- C2 (amended): every snippet built by `find_citations` is at most 203
characters; when the chosen sentence has at most 200 characters the
snippet is that sentence unchanged, and when it is longer the snippet is
its first 200 characters plus a 3-character ellipsis, i.e. exactly 203
characters — which exceeds the 200-character bound the claim stated. -/
theorem c2_snippet_bounds (query : String) (pages_text : List (String × String))
    (top_k : Nat) :
    ∀ c ∈ find_citations query pages_text top_k,
      c.snippet.length ≤ 203 ∧
      ∃ s, (s.length ≤ 200 ∧ c.snippet = s) ∨
           (200 < s.length ∧ c.snippet = String.mk (s.data.take 200) ++ "..." ∧
            c.snippet.length = 203) := by
  intro c hc
  have hc2 : c ∈ (pages_text.filterMap (citeOfPage (queryWords query))).insertionSort relGe :=
    List.take_subset _ _ hc
  have hc3 : c ∈ pages_text.filterMap (citeOfPage (queryWords query)) :=
    (List.perm_insertionSort relGe _).mem_iff.mp hc2
  rcases List.mem_filterMap.mp hc3 with ⟨pg, _, hpg⟩
  rcases citeOfPage_spec (queryWords query) pg c hpg with ⟨_, s, hsnip, _⟩
  by_cases hlen : 200 < s.length
  · have hdata : (String.mk (s.data.take 200) ++ "...").length = 203 := by
      have h1 : (String.mk (s.data.take 200)).length = 200 := by
        show (s.data.take 200).length = 200
        have : s.data.length = s.length := rfl
        rw [List.length_take]
        omega
      rw [String.length_append, h1]
      rfl
    have hs : c.snippet = String.mk (s.data.take 200) ++ "..." := by
      rw [hsnip, truncSnippet, if_pos hlen]
    refine ⟨by rw [hs, hdata], s, Or.inr ⟨hlen, hs, by rw [hs, hdata]⟩⟩
  · have hs : c.snippet = s := by
      rw [hsnip, truncSnippet, if_neg hlen]
    exact ⟨by rw [hs]; omega, s, Or.inl ⟨by omega, hs⟩⟩

/-- Witness for C2 at a concrete query and page map. -/
theorem c2_witness :
    (Citation.mk (.num 1) "a zebra" 1).snippet.length ≤ 203 ∧
    ∃ s, (s.length ≤ 200 ∧ (Citation.mk (.num 1) "a zebra" 1).snippet = s) ∨
         (200 < s.length ∧
          (Citation.mk (.num 1) "a zebra" 1).snippet = String.mk (s.data.take 200) ++ "..." ∧
          (Citation.mk (.num 1) "a zebra" 1).snippet.length = 203) :=
  c2_snippet_bounds "zebra" [("1", "a zebra. x")] 3
    (Citation.mk (.num 1) "a zebra" 1) (by decide)

set_option maxRecDepth 8192 in
/-- Counterexample to C2 as stated: a 206-character sentence produces a
snippet of 203 characters (200 kept plus the ellipsis), exceeding the
claimed 200-character bound. -/
theorem c2_counterexample :
    ((find_citations "zebra" [("1", "zebra " ++ String.mk (List.replicate 200 'x'))] 3).map
        (fun c => c.snippet.length)) = [203] ∧ 200 < 203 := by
  exact ⟨by decide, by decide⟩

set_option maxRecDepth 8192 in
/-- C5: on the raw model output consisting of a ```json fence around the
one-element array, the parsing section of `generate_quiz` strips the
fence lines and yields exactly one validated QuizQuestion with question
`"Q"`, type `"SAQ"`, no options, correct answer `"A"`, explanation `"E"`. -/
theorem c5_fenced_response_parses :
    generate_quiz_questions
        "```json\n[\x7b\"question\":\"Q\",\"question_type\":\"SAQ\",\"options\":null,\"correct_answer\":\"A\",\"explanation\":\"E\"\x7d]\n```" =
      [⟨"Q", none, "A", "E", "SAQ"⟩] := by
  decide

/-- C6: the parsing section of `generate_quiz` never returns an empty
question list; when `json.loads` fails (or yields a non-iterable value)
the single parse-failure placeholder is substituted, and when the value
iterates, each element is validated individually — invalid elements are
dropped without failing the batch — with the single empty-list
placeholder substituted when nothing validates.  No parse error escapes. -/
theorem c6_quiz_parse_always_yields_questions :
    (∀ response, generate_quiz_questions response ≠ []) ∧
    (∀ response, pyJsonLoads (cleanResponse response) = none →
      generate_quiz_questions response = [fallbackParseFailQuestion]) ∧
    (∀ response v, pyJsonLoads (cleanResponse response) = some v → iterElems v = none →
      generate_quiz_questions response = [fallbackParseFailQuestion]) ∧
    (∀ response v elems, pyJsonLoads (cleanResponse response) = some v →
      iterElems v = some elems →
      generate_quiz_questions response =
        (if (elems.filterMap validateQuizQuestion).isEmpty then [fallbackEmptyQuestion]
         else elems.filterMap validateQuizQuestion)) := by
  refine ⟨?_, ?_, ?_, ?_⟩
  · intro response
    rcases hp : pyJsonLoads (cleanResponse response) with _ | v
    · simp [generate_quiz_questions, hp]
    · rcases hi : iterElems v with _ | elems
      · simp [generate_quiz_questions, hp, hi]
      · by_cases hv : (elems.filterMap validateQuizQuestion).isEmpty = true
        · simp [generate_quiz_questions, hp, hi, hv]
        · have hne : elems.filterMap validateQuizQuestion ≠ [] := by
            intro h
            exact hv (by simp [h])
          simp [generate_quiz_questions, hp, hi, hv, hne]
  · intro response hp
    simp [generate_quiz_questions, hp]
  · intro response v hp hi
    simp [generate_quiz_questions, hp, hi]
  · intro response v elems hp hi
    simp [generate_quiz_questions, hp, hi]

/-- Witness for C6: a non-JSON response takes the parse-failure branch,
and a parseable array whose elements all fail validation takes the
empty-list placeholder branch. -/
theorem c6_witness :
    generate_quiz_questions "oops" = [fallbackParseFailQuestion] ∧
    generate_quiz_questions "[\"not an object\"]" = [fallbackEmptyQuestion] :=
  ⟨c6_quiz_parse_always_yields_questions.2.1 "oops" rfl,
   by
    have := c6_quiz_parse_always_yields_questions.2.2.2 "[\"not an object\"]"
      (Json.arr [Json.str "not an object"]) [Json.str "not an object"]
      rfl rfl
    simpa using this⟩

theorem gradeLoop_is_correct_eq (answers : List QuizAnswer) :
    ∀ (qs : List QuizQuestion) (idx : Nat), ∀ r ∈ gradeLoop answers idx qs,
      r.is_correct = (stripLower r.user_answer == stripLower r.correct_answer) := by
  intro qs
  induction qs with
  | nil => intro idx r hr; simp [gradeLoop] at hr
  | cons q qs ih =>
    intro idx r hr
    rcases List.mem_cons.mp hr with hr | hr
    · subst hr; rfl
    · exact ih (idx + 1) r hr

theorem gradeLoop_getElem? (answers : List QuizAnswer) :
    ∀ (qs : List QuizQuestion) (idx i : Nat),
      (gradeLoop answers idx qs)[i]? = (qs[i]?).map (fun q => gradeOne answers (idx + i) q) := by
  intro qs
  induction qs with
  | nil => intro idx i; simp [gradeLoop]
  | cons q qs ih =>
    intro idx i
    cases i with
    | zero => simp [gradeLoop]
    | succ i =>
      simp only [gradeLoop, List.getElem?_cons_succ]
      rw [ih (idx + 1) i]
      have : idx + 1 + i = idx + (i + 1) := by omega
      rw [this]

theorem find?_filter_of_imp {α : Type} (p q : α → Bool)
    (himp : ∀ a, q a = true → p a = true) :
    ∀ l : List α, (l.filter p).find? q = l.find? q := by
  intro l
  induction l with
  | nil => rfl
  | cons a l ih =>
    by_cases hp : p a = true
    · rw [List.filter_cons_of_pos hp]
      cases hq : q a with
      | true => simp [List.find?_cons, hq]
      | false => simp [List.find?_cons, hq, ih]
    · have hq : q a = false := by
        cases hqa : q a with
        | true => exact absurd (himp a hqa) hp
        | false => rfl
      rw [List.filter_cons_of_neg (by simp [hp])]
      simp [List.find?_cons, hq, ih]

theorem answer_map_get_filter (answers : List QuizAnswer) (n : Nat) (i : Int)
    (h0 : 0 ≤ i) (hi : i < (n : Int)) :
    answer_map_get
        (answers.filter (fun a => decide (0 ≤ a.question_index ∧ a.question_index < (n : Int))))
        i =
      answer_map_get answers i := by
  unfold answer_map_get
  rw [← List.filter_reverse]
  have himp : ∀ a : QuizAnswer, (a.question_index == i) = true →
      (decide (0 ≤ a.question_index ∧ a.question_index < (n : Int))) = true := by
    intro a ha
    have heq : a.question_index = i := beq_iff_eq.mp ha
    rw [decide_eq_true_iff]
    exact ⟨heq ▸ h0, heq ▸ hi⟩
  rw [find?_filter_of_imp _ _ himp answers.reverse]

theorem gradeLoop_filter (answers : List QuizAnswer) (n : Nat) :
    ∀ (qs : List QuizQuestion) (idx : Nat), idx + qs.length ≤ n →
      gradeLoop
          (answers.filter (fun a => decide (0 ≤ a.question_index ∧ a.question_index < (n : Int))))
          idx qs =
        gradeLoop answers idx qs := by
  intro qs
  induction qs with
  | nil => intro idx _; rfl
  | cons q qs ih =>
    intro idx hle
    simp only [List.length_cons] at hle
    have h1 : gradeOne
        (answers.filter (fun a => decide (0 ≤ a.question_index ∧ a.question_index < (n : Int))))
        idx q = gradeOne answers idx q := by
      unfold gradeOne
      rw [answer_map_get_filter answers n (idx : Int) (by omega) (by exact_mod_cast by omega)]
    simp only [gradeLoop, h1, ih (idx + 1) (by omega)]

theorem string_eq_empty_iff (s : String) : s = "" ↔ s.data = [] := by
  constructor
  · intro h
    rw [h]
  · intro h
    cases s with
    | mk data =>
      simp only at h
      rw [h]

/-- C7: quiz submission grades each answer by case-insensitive,
whitespace-trimmed equality with the correct answer; the score is
`correct/total × 100`; the one-question quiz answered `"A"` (and even
`" a "`) scores 100, and the zero-question quiz scores 0 with no
division error. -/
theorem c7_submit_quiz_scoring :
    (∀ questions answers,
      (submit_quiz questions answers).score_percentage =
        if questions.isEmpty then 0
        else ((((gradeLoop answers 0 questions).filter (fun r => r.is_correct)).length : ℚ)
                / questions.length) * 100) ∧
    (∀ questions answers, ∀ r ∈ (submit_quiz questions answers).results,
      r.is_correct = (stripLower r.user_answer == stripLower r.correct_answer)) ∧
    (submit_quiz [⟨"Q1", none, "A", "E", "SAQ"⟩] [⟨0, "A"⟩]).score_percentage = 100 ∧
    (submit_quiz [⟨"Q1", none, "A", "E", "SAQ"⟩] [⟨0, " a "⟩]).score_percentage = 100 ∧
    (∀ answers, (submit_quiz [] answers).score_percentage = 0) := by
  refine ⟨fun _ _ => rfl, ?_, ?_, ?_, fun _ => rfl⟩
  · intro questions answers r hr
    exact gradeLoop_is_correct_eq answers questions 0 r hr
  · have h : (submit_quiz [⟨"Q1", none, "A", "E", "SAQ"⟩] [⟨0, "A"⟩]).score_percentage =
        (((1 : Nat) : ℚ) / ((1 : Nat) : ℚ)) * 100 := rfl
    rw [h]
    norm_num
  · have h : (submit_quiz [⟨"Q1", none, "A", "E", "SAQ"⟩] [⟨0, " a "⟩]).score_percentage =
        (((1 : Nat) : ℚ) / ((1 : Nat) : ℚ)) * 100 := rfl
    rw [h]
    norm_num

/-- Witness for C7 at a concrete quiz and answer list. -/
theorem c7_witness :
    (QuestionResult.mk 0 "Q1" "A" "A" true "E").is_correct =
      (stripLower (QuestionResult.mk 0 "Q1" "A" "A" true "E").user_answer ==
       stripLower (QuestionResult.mk 0 "Q1" "A" "A" true "E").correct_answer) :=
  c7_submit_quiz_scoring.2.1 [⟨"Q1", none, "A", "E", "SAQ"⟩] [⟨0, "A"⟩]
    (QuestionResult.mk 0 "Q1" "A" "A" true "E") (by decide)

/-- C10: submitted answers whose index is out of range are silently
ignored (filtering them away changes neither the score nor the result
list), and a question with no submitted answer is graded against the
empty string, so it is marked correct exactly when its correct answer
strips to the empty string. -/
theorem c10_submit_quiz_index_semantics (questions : List QuizQuestion)
    (answers : List QuizAnswer) :
    (submit_quiz questions
        (answers.filter
          (fun a => decide (0 ≤ a.question_index ∧ a.question_index < (questions.length : Int)))) =
      submit_quiz questions answers) ∧
    ∀ (i : Nat) (q : QuizQuestion), questions[i]? = some q →
      (∀ a ∈ answers, (a.question_index == (i : Int)) = false) →
      (submit_quiz questions answers).results[i]? =
        some ⟨i, q.question, "", q.correct_answer, "" == stripLower q.correct_answer,
              q.explanation⟩ ∧
      (("" == stripLower q.correct_answer) = true ↔ pyStrip q.correct_answer = "") := by
  constructor
  · unfold submit_quiz
    rw [gradeLoop_filter answers questions.length questions 0 (by omega)]
  · intro i q hq hno
    have hres : (submit_quiz questions answers).results = gradeLoop answers 0 questions := rfl
    have hget := gradeLoop_getElem? answers questions 0 i
    rw [hres, hget, hq]
    have hmap : answer_map_get answers (i : Int) = "" := by
      unfold answer_map_get
      rw [List.find?_eq_none.mpr ?_]
      intro a ha
      rw [hno a (List.mem_reverse.mp ha)]
      simp
    constructor
    · simp only [Option.map_some, Nat.zero_add]
      unfold gradeOne
      rw [hmap]
      rfl
    · rw [beq_iff_eq]
      constructor
      · intro h
        have hd : lowerData (stripData q.correct_answer.data) = [] := by
          have := congrArg String.data h.symm
          exact this
        have : stripData q.correct_answer.data = [] := by
          simpa [lowerData] using hd
        exact (string_eq_empty_iff (pyStrip q.correct_answer)).mpr this
      · intro h
        have hd : stripData q.correct_answer.data = [] :=
          (string_eq_empty_iff (pyStrip q.correct_answer)).mp h
        show "" = pyLower (pyStrip q.correct_answer)
        rw [pyStrip, hd]
        rfl

/-- Witness for C10: a single out-of-range answer is ignored, and the
unanswered question against correct answer `"A"` is graded incorrect. -/
theorem c10_witness :
    (submit_quiz [⟨"Q1", none, "A", "E", "SAQ"⟩]
        (([⟨5, "x"⟩] : List QuizAnswer).filter
          (fun a => decide (0 ≤ a.question_index ∧
            a.question_index < ((([⟨"Q1", none, "A", "E", "SAQ"⟩] : List QuizQuestion)).length : Int)))) =
      submit_quiz [⟨"Q1", none, "A", "E", "SAQ"⟩] [⟨5, "x"⟩]) ∧
    ((submit_quiz [⟨"Q1", none, "A", "E", "SAQ"⟩] [⟨5, "x"⟩]).results[0]? =
        some ⟨0, "Q1", "", "A", "" == stripLower "A", "E"⟩ ∧
      (("" == stripLower "A") = true ↔ pyStrip "A" = "")) :=
  ⟨(c10_submit_quiz_index_semantics [⟨"Q1", none, "A", "E", "SAQ"⟩] [⟨5, "x"⟩]).1,
   (c10_submit_quiz_index_semantics [⟨"Q1", none, "A", "E", "SAQ"⟩] [⟨5, "x"⟩]).2 0
     ⟨"Q1", none, "A", "E", "SAQ"⟩ rfl (by decide)⟩

theorem roundHalfEven_intCast (n : ℤ) : roundHalfEven ((n : ℚ)) = n := by
  unfold roundHalfEven
  rw [Int.floor_intCast]
  rw [if_pos]
  norm_num

theorem pyRound1_intCast (n : ℤ) : pyRound1 ((n : ℚ)) = (n : ℚ) := by
  unfold pyRound1
  have h : (10 : ℚ) * (n : ℚ) = ((10 * n : ℤ) : ℚ) := by push_cast; ring
  rw [h, roundHalfEven_intCast]
  push_cast
  ring

/-- C3 (amended): the overall score reported by `get_progress` is the
simple average of the per-attempt score percentages (rounded to one
decimal), not the question-count-weighted global average the claim
asserts; the two differ when attempts have unequal question counts (see
the counterexample). -/
theorem c3_overall_is_simple_average (attempts : List QuizAttemptRec)
    (h : attempts ≠ []) :
    (get_progress attempts).overall_score =
      pyRound1 (((attempts.map (fun a => a.score_percentage)).sum) / (attempts.length : ℚ)) := by
  unfold get_progress
  rw [if_neg (by simpa [List.isEmpty_iff] using h)]

/-- Witness for C3 at a concrete attempt list. -/
theorem c3_witness :
    (get_progress [⟨1, 1, 100⟩]).overall_score =
      pyRound1 ((([⟨1, 1, (100 : ℚ)⟩] : List QuizAttemptRec).map
          (fun a => a.score_percentage)).sum /
        ((([⟨1, 1, (100 : ℚ)⟩] : List QuizAttemptRec).length : ℚ))) :=
  c3_overall_is_simple_average [⟨1, 1, 100⟩] (List.cons_ne_nil _ _)

/-- Counterexample to C3 as stated: attempts of 1 and 3 questions scoring
100% and 0% give overall score 50 (simple average) while the weighted
global average is 25. -/
theorem c3_counterexample :
    (get_progress [⟨1, 1, 100⟩, ⟨3, 0, 0⟩]).overall_score = 50 ∧
    specWeightedOverallScore [⟨1, 1, 100⟩, ⟨3, 0, 0⟩] = 25 ∧
    (get_progress [⟨1, 1, 100⟩, ⟨3, 0, 0⟩]).overall_score ≠
      specWeightedOverallScore [⟨1, 1, 100⟩, ⟨3, 0, 0⟩] := by
  have h1 : (get_progress [⟨1, 1, 100⟩, ⟨3, 0, 0⟩]).overall_score = 50 := by
    have e : (get_progress [⟨1, 1, 100⟩, ⟨3, 0, 0⟩]).overall_score =
        pyRound1 ((((100 : ℚ) + (0 + 0))) / (((2 : ℕ) : ℚ))) := rfl
    rw [e, show (((100 : ℚ) + (0 + 0))) / (((2 : ℕ) : ℚ)) = ((50 : ℤ) : ℚ) by norm_num,
      pyRound1_intCast]
    norm_num
  have h2 : specWeightedOverallScore [⟨1, 1, 100⟩, ⟨3, 0, 0⟩] = 25 := by
    unfold specWeightedOverallScore
    simp only [List.map_cons, List.map_nil, List.sum_cons, List.sum_nil]
    norm_num
  refine ⟨h1, h2, ?_⟩
  rw [h1, h2]
  norm_num

set_option maxRecDepth 8192 in
/-- C9 (amended): the fallback generator returns the one-SAQ JSON array
exactly when the lowercased prompt contains both "generate" and "quiz"
AND none of the higher-priority conversational triggers "question",
"explain", "what" (the original claim omitted the priority of the first
dispatch branch — see the counterexample); the returned string parses to
exactly one SAQ question with null options. -/
theorem c9_fallback_quiz_branch (p sys : String)
    (h1 : pyContains "question" (pyLower p) = false)
    (h2 : pyContains "explain" (pyLower p) = false)
    (h3 : pyContains "what" (pyLower p) = false)
    (h4 : pyContains "generate" (pyLower p) = true)
    (h5 : pyContains "quiz" (pyLower p) = true) :
    get_fallback_response p sys = quizFallbackJson ∧
    ((pyJsonLoads quizFallbackJson).bind iterElems).map (List.filterMap validateQuizQuestion) =
      some [⟨"What is the fundamental principle discussed in the material?", none,
            "Please refer to the study material for the correct answer",
            "This is a template question. Connect the AI service for personalized questions.",
            "SAQ"⟩] := by
  constructor
  · simp [get_fallback_response, h1, h2, h3, h4, h5]
  · decide

set_option maxRecDepth 8192 in
/-- Witness for C9 at a concrete prompt. -/
theorem c9_witness :
    get_fallback_response "generate a quiz" "" = quizFallbackJson :=
  (c9_fallback_quiz_branch "generate a quiz" "" (by decide) (by decide) (by decide)
    (by decide) (by decide)).1

set_option maxRecDepth 8192 in
/-- Counterexample to C9 as stated: a prompt containing "generate" and
"quiz" but also "what" takes the conversational branch, whose text is not
JSON at all, rather than returning the quiz JSON array. -/
theorem c9_counterexample :
    pyContains "generate" (pyLower "what: generate quiz") = true ∧
    pyContains "quiz" (pyLower "what: generate quiz") = true ∧
    get_fallback_response "what: generate quiz" "" = conversationalFallbackText ∧
    (pyJsonLoads conversationalFallbackText).isNone = true ∧
    get_fallback_response "what: generate quiz" "" ≠ quizFallbackJson := by
  refine ⟨by decide, by decide, by decide, by decide, by decide⟩

/-- C8 (code bug): when every extraction strategy fails, the 422
`HTTPException` raised by `extract_text_from_pdf` propagates through the
bare `except HTTPException: raise` branch of `upload_pdf`, so the upload
is rejected with 422 but the partially saved file is NOT removed from
disk (second component `true`), contradicting the stated cleanup. -/
theorem c8_extraction_failure_leaves_file :
    upload_pdf_after_save [] [] [] none =
      (.httpError ⟨422, extractFailDetail⟩, true) ∧
    extract_text_from_pdf [] [] [] none = .error ⟨422, extractFailDetail⟩ := by
  exact ⟨rfl, rfl⟩
